import Mathlib

/-!
Shallow embedding of the coredatastore-swagger-mcp server (JavaScript) in Lean 4,
for checking the repository's natural-language specification against the code.

Source files embedded:
  * `src/utils/cache.js`      (`ResponseCache`)
  * `src/utils/pagination.js` (`PaginationHelper`)
  * `src/index.js`            (`SwaggerMCPServer.executeApiCall`,
                               `SwaggerMCPServer.buildTools`,
                               the Express `/mcp` endpoint handler)

Modelling conventions:
  * JavaScript values are modelled by the inductive `JSVal` (null, booleans,
    natural numbers, strings, arrays, objects-as-association-lists).  The
    numbers appearing in the modelled code paths are non-negative integers,
    so `Nat` is used; `undefined` is modelled by `Option` at the places where
    the code distinguishes it.
  * JS objects are association lists in insertion order; property lookup
    returns the first binding.
  * String operations (`includes`, one-shot `replace`, `toLowerCase`,
    `toUpperCase`, the regex replaces used for tool names) are defined here
    by structural recursion over the character list so that every definition
    is executable by the kernel.
  * `JSON.stringify` is modelled by `serializeJSVal`; character escaping
    inside string literals is not modelled (no claim depends on it), and
    `stringifyPretty` does not model the 2-space indentation of
    `JSON.stringify(x, null, 2)` (again, no claim depends on the whitespace).
-/

namespace CoreMCP

/-- Model of a JavaScript (JSON-like) value. -/
inductive JSVal where
  | null : JSVal
  | bool : Bool → JSVal
  | num : Nat → JSVal
  | str : String → JSVal
  | arr : List JSVal → JSVal
  | obj : List (String × JSVal) → JSVal

/-- Strict-equality test against JS `null`. -/
def isNullJS : JSVal → Bool
  | .null => true
  | _ => false

/-- JavaScript truthiness of a value (`0`, `false`, `null`, `""` are falsy;
arrays and objects are always truthy). -/
def jsTruthy : JSVal → Bool
  | .null => false
  | .bool b => b
  | .num n => n != 0
  | .str s => s != ""
  | .arr _ => true
  | .obj _ => true

/-- JavaScript `String(v)` conversion for the modelled values. -/
def jsToString : JSVal → String
  | .null => "null"
  | .bool true => "true"
  | .bool false => "false"
  | .num n => toString n
  | .str s => s
  | .arr _ => ""
  | .obj _ => "[object Object]"

/-- JS property access `o[k]` on an association-list object: first binding wins
(JS objects have unique keys, so this is exact on real objects). -/
def lookupJS : List (String × JSVal) → String → Option JSVal
  | [], _ => none
  | (k', v) :: rest, k => if k' = k then some v else lookupJS rest k

mutual
/-- Model of `JSON.stringify` for the modelled values (string escaping not modelled). -/
def serializeJSVal : JSVal → String
  | .null => "null"
  | .bool true => "true"
  | .bool false => "false"
  | .num n => toString n
  | .str s => "\"" ++ s ++ "\""
  | .arr xs => "[" ++ serializeList xs ++ "]"
  | .obj fs => "\x7b" ++ serializeFields fs ++ "\x7d"

/-- Comma-separated serialization of an array's elements. -/
def serializeList : List JSVal → String
  | [] => ""
  | [x] => serializeJSVal x
  | x :: rest => serializeJSVal x ++ "," ++ serializeList rest

/-- Comma-separated serialization of an object's fields. -/
def serializeFields : List (String × JSVal) → String
  | [] => ""
  | [(k, v)] => "\"" ++ k ++ "\":" ++ serializeJSVal v
  | (k, v) :: rest => "\"" ++ k ++ "\":" ++ serializeJSVal v ++ "," ++ serializeFields rest
end

/-- Model of `JSON.stringify(x, null, 2)`; the 2-space indentation is not modelled
(no claim depends on the whitespace of the pretty-printed body). -/
def stringifyPretty (v : JSVal) : String := serializeJSVal v

/-! ### Character-list string operations (JS string methods) -/

/-- Does `hay` start with `needle`? (helper for `includes`/`replace`). -/
def startsWithL : List Char → List Char → Bool
  | _, [] => true
  | [], _ :: _ => false
  | h :: hs, n :: ns => h = n && startsWithL hs ns

/-- Does `hay` contain `needle` as a contiguous substring? -/
def containsSubL (hay needle : List Char) : Bool :=
  match hay with
  | [] => needle.isEmpty
  | _ :: t => startsWithL hay needle || containsSubL t needle

/-- JS `s.includes(sub)`. -/
def strIncludes (s sub : String) : Bool := containsSubL s.data sub.data

/-- Replace the first occurrence of `pat` in `s` by `rep`
(JS `String.prototype.replace` with a plain-string pattern). -/
def replaceFirstL (s pat rep : List Char) : List Char :=
  match s with
  | [] => []
  | h :: t =>
    if startsWithL s pat then rep ++ s.drop pat.length
    else h :: replaceFirstL t pat rep

/-- JS `s.replace(pat, rep)` (first occurrence only). -/
def replaceFirst (s pat rep : String) : String := ⟨replaceFirstL s.data pat.data rep.data⟩

/-- JS `s.toLowerCase()` (ASCII, which covers the HTTP method strings). -/
def jsToLower (s : String) : String := ⟨s.data.map Char.toLower⟩

/-- JS `s.toUpperCase()` (ASCII, which covers the HTTP method strings). -/
def jsToUpper (s : String) : String := ⟨s.data.map Char.toUpper⟩

/-- JS `path.replace(/\//g, '_')`: global single-character replacement. -/
def replaceAllChar (s : String) (c r : Char) : String :=
  ⟨s.data.map (fun x => if x = c then r else x)⟩

/-- JS `s.replace(/[{}]/g, '')`: strip all curly braces. -/
def stripBraces (s : String) : String :=
  ⟨s.data.filter (fun c => c ≠ '\x7b' && c ≠ '\x7d')⟩

/-! ### URLSearchParams (application/x-www-form-urlencoded serialization) -/

/-- Hex digit (uppercase), for percent-encoding. -/
def hexDigitChar (n : Nat) : Char :=
  if n < 10 then Char.ofNat (48 + n) else Char.ofNat (55 + n)

/-- UTF-8 bytes of a code point. -/
def utf8Bytes (n : Nat) : List Nat :=
  if n < 128 then [n]
  else if n < 2048 then [192 + n / 64, 128 + n % 64]
  else if n < 65536 then [224 + n / 4096, 128 + (n / 64) % 64, 128 + n % 64]
  else [240 + n / 262144, 128 + (n / 4096) % 64, 128 + (n / 64) % 64, 128 + n % 64]

/-- Form-encoding of one character (`URLSearchParams` rules: alphanumerics and
`*-._` unchanged, space becomes `+`, everything else percent-encoded). -/
def formEncodeChar (c : Char) : String :=
  if c.isAlphanum || c = '*' || c = '-' || c = '.' || c = '_' then String.singleton c
  else if c = ' ' then "+"
  else String.mk ((utf8Bytes c.toNat).foldr
    (fun b acc => '%' :: hexDigitChar (b / 16) :: hexDigitChar (b % 16) :: acc) [])

/-- Form-encoding of a string. -/
def formEncode (s : String) : String := String.join (s.data.map formEncodeChar)

/-- Model of `URLSearchParams.prototype.toString` on an appended list of (key, value)
pairs: `k1=v1&k2=v2&...`, keys and values form-encoded. -/
def queryToString (ps : List (String × String)) : String :=
  match ps with
  | [] => ""
  | [(k, v)] => formEncode k ++ "=" ++ formEncode v
  | (k, v) :: rest => formEncode k ++ "=" ++ formEncode v ++ "&" ++ queryToString rest

/-! ## ResponseCache (`src/utils/cache.js`) -/

/-- One cache entry: `{ data, expiry }` (expiry is an absolute timestamp,
`Date.now() + ttl`). -/
structure CacheEntry where
  data : JSVal
  expiry : Nat

/-- The mutable state of a `ResponseCache` instance.  The JS `Map` is an
insertion-ordered association list with unique keys. -/
structure ResponseCache where
  cache : List (String × CacheEntry)
  defaultTtl : Nat
  maxSize : Nat
  enabled : Bool

/-- JS `Map.prototype.get`. -/
def mapGet : List (String × CacheEntry) → String → Option CacheEntry
  | [], _ => none
  | (k', e) :: rest, k => if k' = k then some e else mapGet rest k

/-- JS `Map.prototype.set`: replace the value in place if the key is present
(keeping insertion order), else append the new binding. -/
def mapSet : List (String × CacheEntry) → String → CacheEntry → List (String × CacheEntry)
  | [], k, e => [(k, e)]
  | (k₁, e₁) :: t, k, e => if k₁ = k then (k, e) :: t else (k₁, e₁) :: mapSet t k e

/-- JS `Map.prototype.delete`. -/
def mapDelete (m : List (String × CacheEntry)) (k : String) : List (String × CacheEntry) :=
  m.filter (fun kv => kv.1 ≠ k)

/-- Model of `ResponseCache.evictOldest(count)`: sort the entries by expiry and delete
the `count` entries with the nearest expiry. -/
def ResponseCache.evictOldestMap (m : List (String × CacheEntry)) (count : Nat) :
    List (String × CacheEntry) :=
  let sorted := List.insertionSort (fun a b : String × CacheEntry => a.2.expiry ≤ b.2.expiry) m
  (sorted.take count).foldl (fun acc e => mapDelete acc e.1) m

/-- Model of `ResponseCache.generateKey(method, url, params)`: params keys are sorted,
an object is rebuilt in sorted key order and `JSON.stringify`-ed, and the key
is `method:url:normalizedParams`. -/
def ResponseCache.generateKey (method url : String) (params : List (String × JSVal)) : String :=
  let sortedKeys := List.insertionSort (· ≤ ·) (params.map Prod.fst)
  let normalizedParams :=
    serializeJSVal (.obj (sortedKeys.map (fun k => (k, (lookupJS params k).getD .null))))
  method ++ ":" ++ url ++ ":" ++ normalizedParams

/-- Model of `ResponseCache.set(key, data, ttl)` at current time `now`. -/
def ResponseCache.set (s : ResponseCache) (now : Nat) (k : String) (data : JSVal)
    (ttl : Nat) : ResponseCache :=
  if s.enabled = false then s
  else
    let m := if s.cache.length ≥ s.maxSize then ResponseCache.evictOldestMap s.cache 1
             else s.cache
    { s with cache := mapSet m k ⟨data, now + ttl⟩ }

/-- Model of `ResponseCache.get(key)` at current time `now`.  Returns the value
(`JSVal.null` is the miss sentinel) together with the state after the call
(lazy deletion of an expired entry is a side effect). -/
def ResponseCache.get (s : ResponseCache) (now : Nat) (k : String) : JSVal × ResponseCache :=
  if s.enabled = false then (.null, s)
  else
    match mapGet s.cache k with
    | none => (.null, s)
    | some e =>
      if e.expiry ≤ now then (.null, { s with cache := mapDelete s.cache k })
      else (e.data, s)

/-- Model of `ResponseCache.getOrFetch(key, fetchFn, ttl)` at current time `now`.
`produced` is the value `fetchFn` would produce; the third component of the
result records whether `fetchFn` was invoked.  (A producer returning
`undefined` is not modelled; no claim depends on it.) -/
def ResponseCache.getOrFetch (s : ResponseCache) (now : Nat) (k : String)
    (produced : JSVal) (ttl : Nat) : JSVal × ResponseCache × Bool :=
  if s.enabled = false then (produced, s, true)
  else
    let r := ResponseCache.get s now k
    if isNullJS r.1 = false then (r.1, r.2, false)
    else
      let s₂ := if isNullJS produced = false then ResponseCache.set r.2 now k produced ttl
                else r.2
      (produced, s₂, true)

/-! ## PaginationHelper (`src/utils/pagination.js`)

The response argument of `extractPaginationInfo` is modelled by a record of
optional numeric fields (the fields the function reads).  `Option Nat` models
a JS number-or-undefined; `none` arising inside an arithmetic computation
models a non-finite result (`NaN`, from arithmetic on `undefined`, or
division by zero), which is falsy and for which `<` comparisons are false —
exactly the JS behaviour on the modelled operations. -/

/-- Truthiness of a number-or-undefined (`0`, `undefined`, `NaN` are falsy). -/
def truthyN : Option Nat → Bool
  | some n => n != 0
  | none => false

/-- JS `a || b` on number-or-undefined values. -/
def jsOrN (a b : Option Nat) : Option Nat := if truthyN a then a else b

/-- JS `Math.ceil(a / b)` on number-or-undefined values (`none` = non-finite). -/
def ceilDivN (a b : Option Nat) : Option Nat :=
  match a, b with
  | some x, some y => if y = 0 then none else some ((x + y - 1) / y)
  | _, _ => none

/-- JS `Math.floor(a / b)` on number-or-undefined values. -/
def floorDivN (a b : Option Nat) : Option Nat :=
  match a, b with
  | some x, some y => if y = 0 then none else some (x / y)
  | _, _ => none

/-- JS `a + b` on number-or-undefined values. -/
def addN (a b : Option Nat) : Option Nat :=
  match a, b with
  | some x, some y => some (x + y)
  | _, _ => none

/-- JS `a < b` on number-or-undefined values (comparisons with `NaN`/`undefined`
are false). -/
def ltN (a b : Option Nat) : Bool :=
  match a, b with
  | some x, some y => x < y
  | _, _ => false

/-- The `meta.pagination` sub-object of a response. -/
structure MetaPagination where
  page : Option Nat
  pageSize : Option Nat
  total : Option Nat
  pageCount : Option Nat

/-- The numeric fields of a response that `extractPaginationInfo` reads. -/
structure PagResponse where
  page : Option Nat
  limit : Option Nat
  totalItems : Option Nat
  total : Option Nat
  totalPages : Option Nat
  current_page : Option Nat
  per_page : Option Nat
  last_page : Option Nat
  offset : Option Nat
  count : Option Nat
  metaPagination : Option MetaPagination

/-- A response with every pagination-related field absent. -/
def PagResponse.empty : PagResponse :=
  ⟨none, none, none, none, none, none, none, none, none, none, none⟩

/-- The pagination descriptor built by `extractPaginationInfo`. -/
structure PagInfo where
  currentPage : Option Nat
  pageSize : Option Nat
  totalItems : Option Nat
  totalPages : Option Nat
  hasMore : Bool
deriving DecidableEq

/-- Model of `PaginationHelper.hasProperties(obj, props)` specialised to each use:
all of the given fields are `!== undefined`. -/
def hasProps (fields : List (Option Nat)) : Bool := fields.all Option.isSome

/-- Model of `PaginationHelper.extractPaginationInfo(response)`: tries the four known
pagination patterns in order; `none` if none matches. -/
def PaginationHelper.extractPaginationInfo (r : PagResponse) : Option PagInfo :=
  if hasProps [r.page, r.limit, r.totalItems] || hasProps [r.page, r.limit, r.total] then
    some
      { currentPage := r.page
        pageSize := r.limit
        totalItems := jsOrN r.totalItems r.total
        totalPages := jsOrN r.totalPages (ceilDivN (jsOrN r.totalItems r.total) r.limit)
        hasMore := ltN r.page (jsOrN r.totalPages
          (ceilDivN (jsOrN r.totalItems r.total) r.limit)) }
  else if hasProps [r.current_page, r.per_page, r.total] then
    some
      { currentPage := r.current_page
        pageSize := r.per_page
        totalItems := r.total
        totalPages := jsOrN r.last_page (ceilDivN r.total r.per_page)
        hasMore := ltN r.current_page (jsOrN r.last_page (ceilDivN r.total r.per_page)) }
  else if hasProps [r.offset, r.limit, r.count] then
    let currentPage := addN (floorDivN r.offset r.limit) (some 1)
    let totalPages := ceilDivN r.count r.limit
    some
      { currentPage := currentPage
        pageSize := r.limit
        totalItems := r.count
        totalPages := totalPages
        hasMore := ltN currentPage totalPages }
  else
    match r.metaPagination with
    | some p =>
      if hasProps [p.page, p.pageSize] then
        some
          { currentPage := p.page
            pageSize := p.pageSize
            totalItems := p.total
            totalPages := p.pageCount
            hasMore := ltN p.page p.pageCount }
      else none
    | none => none

/-- Is the value an array? (`Array.isArray`). -/
def isArr : JSVal → Bool
  | .arr _ => true
  | _ => false

/-- First-defined-wins choice (the early-`return` of a for-loop / an ordered
chain of checks). -/
def orO {α : Type} (a b : Option α) : Option α :=
  match a with
  | some x => some x
  | none => b

/-- The array held by a property value, if the value is an array
(`Array.isArray(response[prop])` followed by `return response[prop]`). -/
def arrOf : Option JSVal → Option (List JSVal)
  | some (.arr xs) => some xs
  | _ => none

/-- The for-loop of `extractData` over the candidate property names: return
the first named property whose value is an array. -/
def findDataProp (fs : List (String × JSVal)) : List String → Option (List JSVal)
  | [] => none
  | p :: rest => orO (arrOf (lookupJS fs p)) (findDataProp fs rest)

/-- The fallback of `extractData` (lines 124–127): collect the keys whose
value is an array (`Object.keys(response).filter(key =>
Array.isArray(response[key]))`); if there is exactly one such key, return
`response[thatKey]`, else `null`. -/
def uniqueArrayProp (fs : List (String × JSVal)) : Option (List JSVal) :=
  let arrayProps := (fs.map Prod.fst).filter
    (fun k => match lookupJS fs k with
      | some v => isArr v
      | none => false)
  match arrayProps with
  | [k] => arrOf (lookupJS fs k)
  | _ => none

/-- Model of `PaginationHelper.extractData(response)` (`none` models the `null` result).

Non-objects are rejected up front (`!response || typeof response !== 'object'`).
For an array the named-property probes all read `undefined`, so the
`Array.isArray(response)` check returns the array verbatim.  For a plain
object: first named property (`data`, `items`, `results`, `records`,
`content`) holding an array wins; otherwise, if exactly one property holds an
array that property is used; otherwise `null`. -/
def PaginationHelper.extractData (response : JSVal) : Option (List JSVal) :=
  match response with
  | .arr xs => some xs
  | .obj fs =>
    orO (findDataProp fs ["data", "items", "results", "records", "content"])
      (uniqueArrayProp fs)
  | _ => none

/-- The claim's description of the `extractData` fallback, phrased on the
object's properties directly: if exactly one property of the object holds an
array, that property's value is returned; with zero or more than one
array-valued properties the result is `null`. -/
def uniqueArrayPropSpec (fs : List (String × JSVal)) : Option (List JSVal) :=
  match fs.filter (fun kv => isArr kv.2) with
  | [kv] => arrOf (some kv.2)
  | _ => none

/-- The claim's description of `extractData`, written as the explicit chain of
checks the claim enumerates: `data`, then `items`, then `results`, then
`records`, then `content` (first array-valued one wins); an array response is
returned verbatim; otherwise the unique array-valued property if there is
exactly one, else `null`. -/
def extractDataSpec (response : JSVal) : Option (List JSVal) :=
  match response with
  | .arr xs => some xs
  | .obj fs =>
    orO (arrOf (lookupJS fs "data"))
      (orO (arrOf (lookupJS fs "items"))
        (orO (arrOf (lookupJS fs "results"))
          (orO (arrOf (lookupJS fs "records"))
            (orO (arrOf (lookupJS fs "content"))
              (uniqueArrayPropSpec fs)))))
  | _ => none

/-! ## SwaggerMCPServer (`src/index.js`) -/

/-- The `{key}` placeholder string for a path parameter named `key`. -/
def placeholder (key : String) : String := "\x7b" ++ key ++ "\x7d"

/-- Model of `String(args[key] || '')`: the string form in which an argument value is
substituted into the URL path or appended to the query string.  A falsy value
(`0`, `false`, `null`, `""`) becomes the empty string. -/
def coerceArg (v : JSVal) : String := if jsTruthy v then jsToString v else ""

/-- URL construction of `SwaggerMCPServer.executeApiCall` (lines 154–182):
start from `API_BASE_URL + path`, substitute every argument whose key appears
in `path` as `{key}` (first occurrence, string-coerced with `|| ''`), then for
GET append the remaining arguments as a query string. -/
def buildExecuteUrl (apiBase path method : String) (args : List (String × JSVal)) : String :=
  let url := apiBase ++ path
  let url := args.foldl
    (fun u kv =>
      if strIncludes path (placeholder kv.1) then
        replaceFirst u (placeholder kv.1) (coerceArg kv.2)
      else u) url
  if jsToLower method = "get" then
    let queryParams := (args.filter (fun kv => !strIncludes path (placeholder kv.1))).map
      (fun kv => (kv.1, coerceArg kv.2))
    let queryString := queryToString queryParams
    if queryString ≠ "" then url ++ "?" ++ queryString else url
  else url

/-- Request options (`method`, `headers`, optional serialized `body`). -/
structure RequestOptions where
  method : String
  headers : List (String × String)
  body : Option String

/-- Request-option construction of `SwaggerMCPServer.executeApiCall`
(lines 187–213): upper-cased method, `Content-Type`/`Accept` headers, and for
non-GET methods a JSON body holding the non-path arguments (no body when that
set is empty). -/
def buildExecuteOptions (path method : String) (args : List (String × JSVal)) :
    RequestOptions :=
  let base : RequestOptions :=
    { method := jsToUpper method
      headers := [("Content-Type", "application/json"), ("Accept", "application/json")]
      body := none }
  if jsToLower method ≠ "get" then
    let bodyArgs := args.filter (fun kv => !strIncludes path (placeholder kv.1))
    if bodyArgs.length > 0 then { base with body := some (serializeJSVal (.obj bodyArgs)) }
    else base
  else base

/-- Outcome of `await response.json()`. -/
inductive BodyResult where
  | parsed : JSVal → BodyResult
  | parseError : String → BodyResult

/-- Outcome of `await fetch(url, options)`: either the promise rejects
(network error, with the error's message) or an HTTP response arrives with a
status, a status text and a body. -/
inductive FetchOutcome where
  | netError : String → FetchOutcome
  | response : Nat → String → BodyResult → FetchOutcome

/-- JS `response.ok`: status in the 2xx range (200–299). -/
def responseOk (status : Nat) : Bool := 200 ≤ status && status < 300

/-- One `{type, text}` content item of a tool result. -/
structure ContentItem where
  type : String
  text : String

/-- The tool-result envelope `{content, isError?}`; the absent `isError` field
of a success (JS `undefined`, falsy) is modelled as `false`. -/
structure ToolResult where
  content : List ContentItem
  isError : Bool

/-- The error envelope built in the `catch` block of `executeApiCall`. -/
def errEnvelope (msg : String) : ToolResult :=
  { content := [⟨"text", "Error executing API call: " ++ msg⟩], isError := true }

/-- Result handling of `SwaggerMCPServer.executeApiCall` (lines 216–252),
as a function of the fetch outcome: a rejected fetch, a non-2xx status (which
throws `API responded with <status>: <statusText>` before the body is read)
and a body-parse failure all land in the `catch` block and are converted to
the error envelope; a parsed 2xx body is wrapped as a single pretty-printed
text item. -/
def SwaggerMCPServer.executeApiCall (outcome : FetchOutcome) : ToolResult :=
  match outcome with
  | .netError msg => errEnvelope msg
  | .response status statusText body =>
    if responseOk status = false then
      errEnvelope ("API responded with " ++ toString status ++ ": " ++ statusText)
    else
      match body with
      | .parseError msg => errEnvelope msg
      | .parsed v => { content := [⟨"text", stringifyPretty v⟩], isError := false }

/-- Is the fetch outcome a failure (network error, non-2xx status, or JSON
parse failure)? -/
def isFailureOutcome : FetchOutcome → Bool
  | .netError _ => true
  | .response status _ body =>
    if responseOk status then
      match body with
      | .parseError _ => true
      | .parsed _ => false
    else true

/-! ### Tool building (`SwaggerMCPServer.buildTools`, lines 329–441) -/

/-- One parameter of an operation (`name`, `in`, `required`, `schema.type`,
`description`). -/
structure Parameter where
  name : String
  inLoc : String
  required : Bool
  schemaType : Option String
  description : Option String

/-- A property of a request-body schema. -/
structure BodyProp where
  name : String
  type : Option String
  description : Option String

/-- The `application/json` schema of a request body. -/
structure BodySchema where
  properties : Option (List BodyProp)
  required : Option (List String)

/-- One operation (one HTTP method on one path) of the Swagger document. -/
structure Operation where
  operationId : Option String
  summary : Option String
  description : Option String
  tags : List String
  parameters : Option (List Parameter)
  requestBody : Option BodySchema

/-- A property of a generated input schema. -/
structure PropSchema where
  type : String
  description : String
deriving DecidableEq

/-- The generated input schema of a tool. -/
structure InputSchema where
  properties : List (String × PropSchema)
  required : Option (List String)
deriving DecidableEq

/-- The metadata block binding a tool back to its path and method. -/
structure ToolMeta where
  path : String
  method : String
  tags : List String
deriving DecidableEq

/-- One entry of the server's tool registry (`this.tools`): the objects pushed
onto `createdTools` carry `name`, `description` and `metadata`. -/
structure Tool where
  name : String
  description : String
  metadata : ToolMeta
deriving DecidableEq

/-- The five HTTP verbs processed by `buildTools`; other keys are skipped. -/
def httpMethods : List String := ["get", "post", "put", "delete", "patch"]

/-- JS `a || b` where `a` is a string-or-undefined (empty string is falsy). -/
def jsOrS (a : Option String) (b : String) : String :=
  match a with
  | some s => if s = "" then b else s
  | none => b

/-- The tool name: `operation.operationId ||
method_path.replace(/\//g,'_').replace(/[{}]/g,'')`. -/
def toolName (method path : String) (op : Operation) : String :=
  jsOrS op.operationId (method ++ "_" ++ stripBraces (replaceAllChar path '/' '_'))

/-- The tool description: `operation.summary || operation.description ||
method.toUpperCase() + ' ' + path`. -/
def toolDescription (method path : String) (op : Operation) : String :=
  jsOrS op.summary (jsOrS op.description (jsToUpper method ++ " " ++ path))

/-- The `properties`/`required` accumulation over `operation.parameters`
(path and query parameters contribute; `required` names are appended in
order). -/
def paramsSchema (ps : List Parameter) : List (String × PropSchema) × List String :=
  ps.foldl
    (fun acc p =>
      if p.inLoc = "path" || p.inLoc = "query" then
        let prop : PropSchema :=
          { type := p.schemaType.getD "string"
            description := p.description.getD (p.name ++
              (if p.inLoc = "path" then " parameter" else " query parameter")) }
        (acc.1 ++ [(p.name, prop)], if p.required then acc.2 ++ [p.name] else acc.2)
      else acc)
    ([], [])

/-- Folding the request-body schema into `properties`/`required`: each body
property is added (type defaults to `"string"`), and each name of the body's
`required` list is appended if not already present. -/
def bodySchemaFold (acc : List (String × PropSchema) × List String)
    (b : BodySchema) : List (String × PropSchema) × List String :=
  match b.properties with
  | none => acc
  | some props =>
    let props' := acc.1 ++ props.map
      (fun p => (p.name, PropSchema.mk (p.type.getD "string") (p.description.getD p.name)))
    let req' := (b.required.getD []).foldl
      (fun r n => if r.contains n then r else r ++ [n]) acc.2
    (props', req')

/-- The input schema generated for one operation (`type: "object"` is implicit
in the structure); `required` is `undefined` when the list is empty. -/
def buildInputSchema (op : Operation) : InputSchema :=
  let acc := paramsSchema (op.parameters.getD [])
  let acc := match op.requestBody with
    | some b => bodySchemaFold acc b
    | none => acc
  { properties := acc.1, required := if acc.2.length > 0 then some acc.2 else none }

/-- The registry entry built for one operation. -/
def buildTool (path method : String) (op : Operation) : Tool :=
  { name := toolName method path op
    description := toolDescription method path op
    metadata := { path := path, method := method, tags := op.tags } }

/-- Model of `SwaggerMCPServer.buildTools` restricted to the registry it constructs:
iterate the paths in document order, iterate each path's methods, skip
non-HTTP keys, and push one entry per operation onto `createdTools` — with no
deduplication of names. -/
def SwaggerMCPServer.buildTools (paths : List (String × List (String × Operation))) :
    List Tool :=
  (paths.map (fun pp =>
    (pp.2.filter (fun mo => httpMethods.contains mo.1)).map
      (fun mo => buildTool pp.1 mo.1 mo.2))).flatten

/-- The `/mcp` `mcp.callTool` lookup (line 504): `this.tools.find(t => t.name
=== params.name)` — the first registry entry with the requested name. -/
def lookupTool (tools : List Tool) (n : String) : Option Tool :=
  tools.find? (fun t => t.name = n)

/-! ### The `/mcp` endpoint handler (`startExpressServer`, lines 456–635) -/

/-- A JSON-RPC response sent by the `/mcp` handler: either a `result` member
or an `error` member with a numeric code, plus the `id` member. -/
inductive RpcOut where
  | result : ToolResult → JSVal → RpcOut
  | rpcError : Int → String → JSVal → RpcOut

/-- Is the response an error response? -/
def RpcOut.isErr : RpcOut → Bool
  | .result _ _ => false
  | .rpcError _ _ _ => true

/-- The envelope fields of an inbound `/mcp` request body that the validation
reads; `none` models an absent (`undefined`) field. -/
structure RpcRequest where
  jsonrpc : Option JSVal
  method : Option JSVal
  id : Option JSVal

/-- Strict equality `jsonrpc === '2.0'`. -/
def isJsonrpc2 : Option JSVal → Bool
  | some (.str s) => s = "2.0"
  | _ => false

/-- Truthiness of a possibly-absent value (`!x` is true for `undefined`). -/
def jsTruthyOpt : Option JSVal → Bool
  | some v => jsTruthy v
  | none => false

/-- The expression `id || null`: the id written into the error response of the envelope
validation. -/
def idOrNull (id : Option JSVal) : JSVal :=
  match id with
  | some v => if jsTruthy v then v else .null
  | none => .null

/-- The envelope validation of the `/mcp` handler (lines 466–478): if
`jsonrpc !== '2.0' || !method`, respond with a `-32600` error whose id is
`id || null`; otherwise fall through (`none`). -/
def validateEnvelope (req : RpcRequest) : Option RpcOut :=
  if isJsonrpc2 req.jsonrpc = false || jsTruthyOpt req.method = false then
    some (.rpcError (-32600) "Invalid Request" (idOrNull req.id))
  else none

/-- URL construction of the `mcp.callTool` branch (lines 537–557): like
`buildExecuteUrl`, but the path substitution is attempted for *every*
argument key (a `replace` with a pattern that does not occur is the
identity). -/
def buildMcpUrl (apiBase path method : String) (args : List (String × JSVal)) : String :=
  let url := apiBase ++ path
  let url := args.foldl
    (fun u kv => replaceFirst u (placeholder kv.1) (coerceArg kv.2)) url
  if jsToLower method = "get" then
    let queryParams := (args.filter (fun kv => !strIncludes path (placeholder kv.1))).map
      (fun kv => (kv.1, coerceArg kv.2))
    let queryString := queryToString queryParams
    if queryString ≠ "" then url ++ "?" ++ queryString else url
  else url

/-- Request-option construction of the `mcp.callTool` branch (lines 560–580);
same shape as `buildExecuteOptions`. -/
def buildMcpOptions (path method : String) (args : List (String × JSVal)) :
    RequestOptions :=
  let base : RequestOptions :=
    { method := jsToUpper method
      headers := [("Content-Type", "application/json"), ("Accept", "application/json")]
      body := none }
  if jsToLower method ≠ "get" then
    let bodyArgs := args.filter (fun kv => !strIncludes path (placeholder kv.1))
    if bodyArgs.length > 0 then { base with body := some (serializeJSVal (.obj bodyArgs)) }
    else base
  else base

/-- Execution tail of the `mcp.callTool` branch (lines 582–612), as a function
of the fetch outcome: the handler parses the body and wraps it as a `result`
*without checking `response.ok`*; only a rejected fetch or a body-parse
failure reaches the inner `catch`, which responds with a `-32000` error. -/
def handleCallToolExec (outcome : FetchOutcome) (id : JSVal) : RpcOut :=
  match outcome with
  | .netError msg => .rpcError (-32000) msg id
  | .response _ _ body =>
    match body with
    | .parseError msg => .rpcError (-32000) msg id
    | .parsed v => .result { content := [⟨"text", stringifyPretty v⟩], isError := false } id

/-! ## Helper lemmas -/

theorem orO_assoc {α : Type} (a b c : Option α) : orO (orO a b) c = orO a (orO b c) := by
  cases a <;> rfl

theorem orO_none_left {α : Type} (b : Option α) : orO none b = b := rfl

/-! ## C7: pagination laws -/

/-- C7: `extractPaginationInfo({page:2, limit:10, totalItems:25})` yields
`{currentPage:2, pageSize:10, totalItems:25, totalPages:3, hasMore:true}`,
and on the last-page input `{page:3, limit:10, totalItems:25}` the descriptor
has `hasMore:false`. -/
theorem extractPaginationInfo_laws :
    PaginationHelper.extractPaginationInfo
        { PagResponse.empty with page := some 2, limit := some 10, totalItems := some 25 } =
      some ⟨some 2, some 10, some 25, some 3, true⟩ ∧
    PaginationHelper.extractPaginationInfo
        { PagResponse.empty with page := some 3, limit := some 10, totalItems := some 25 } =
      some ⟨some 3, some 10, some 25, some 3, false⟩ := by
  constructor <;> rfl

/-! ## C1: the invoker never throws; all failures become the same envelope -/

/-- C1: for every failing fetch outcome (network error, non-2xx status, JSON
parse failure) `executeApiCall` returns — rather than throws — an envelope
with `isError: true` holding exactly one `text` content item: the same
envelope shape for all failures. -/
theorem executeApiCall_failure_envelope (o : FetchOutcome)
    (h : isFailureOutcome o = true) :
    (SwaggerMCPServer.executeApiCall o).isError = true ∧
    (SwaggerMCPServer.executeApiCall o).content.map ContentItem.type = ["text"] := by
  cases o with
  | netError msg => exact ⟨rfl, rfl⟩
  | response status statusText body =>
    by_cases hok : responseOk status = true
    · cases body with
      | parseError msg =>
        simp [SwaggerMCPServer.executeApiCall, hok, errEnvelope]
      | parsed v =>
        exfalso
        simp [isFailureOutcome, hok] at h
    · simp at hok
      simp [SwaggerMCPServer.executeApiCall, hok, errEnvelope]

/-- Witness for C1 at a concrete failing outcome (a rejected fetch). -/
theorem executeApiCall_failure_envelope_witness :
    isFailureOutcome (.netError "ECONNREFUSED") = true ∧
    ((SwaggerMCPServer.executeApiCall (.netError "ECONNREFUSED")).isError = true ∧
      (SwaggerMCPServer.executeApiCall (.netError "ECONNREFUSED")).content.map
        ContentItem.type = ["text"]) :=
  ⟨rfl, executeApiCall_failure_envelope _ rfl⟩

/-! ## C2: Accept header and non-2xx handling -/

/-- C2 counterexample: on the `mcp.callTool` handler path a non-2xx upstream
response (here `404 Not Found`) whose body parses is *not* surfaced as a
thrown error: the handler responds with an ordinary `result`, while
`executeApiCall` on the very same outcome does produce an error. -/
theorem callTool_non2xx_counterexample :
    RpcOut.isErr
        (handleCallToolExec (.response 404 "Not Found" (.parsed (.num 7))) (.num 1)) =
      false ∧
    responseOk 404 = false ∧
    (SwaggerMCPServer.executeApiCall
        (.response 404 "Not Found" (.parsed (.num 7)))).isError = true :=
  ⟨rfl, rfl, rfl⟩

/-- C2 (amended): every upstream call — in `executeApiCall` and in the
`mcp.callTool` handler — carries the `Accept: application/json` header, and
`executeApiCall` surfaces every non-2xx response as a thrown error carrying
the HTTP status and status text; the `mcp.callTool` handler, however, never
checks `response.ok` and returns a non-2xx response with a parsable body as
an ordinary success result. -/
theorem accept_header_and_non2xx (path method : String) (args : List (String × JSVal))
    (status : Nat) (statusText : String) (body : BodyResult) (v : JSVal) (id : JSVal)
    (hnok : responseOk status = false) :
    (buildExecuteOptions path method args).headers =
      [("Content-Type", "application/json"), ("Accept", "application/json")] ∧
    (buildMcpOptions path method args).headers =
      [("Content-Type", "application/json"), ("Accept", "application/json")] ∧
    SwaggerMCPServer.executeApiCall (.response status statusText body) =
      errEnvelope ("API responded with " ++ toString status ++ ": " ++ statusText) ∧
    handleCallToolExec (.response status statusText (.parsed v)) id =
      .result { content := [⟨"text", stringifyPretty v⟩], isError := false } id := by
  refine ⟨?_, ?_, ?_, rfl⟩
  · unfold buildExecuteOptions
    split
    · dsimp only
      split <;> rfl
    · rfl
  · unfold buildMcpOptions
    split
    · dsimp only
      split <;> rfl
    · rfl
  · simp [SwaggerMCPServer.executeApiCall, hnok]

/-- Witness for C2 (amended) at a concrete non-2xx outcome. -/
theorem accept_header_and_non2xx_witness :
    responseOk 500 = false ∧
    ((buildExecuteOptions "/a" "get" []).headers =
      [("Content-Type", "application/json"), ("Accept", "application/json")] ∧
    (buildMcpOptions "/a" "get" []).headers =
      [("Content-Type", "application/json"), ("Accept", "application/json")] ∧
    SwaggerMCPServer.executeApiCall (.response 500 "Server Error" (.parsed .null)) =
      errEnvelope ("API responded with " ++ toString 500 ++ ": " ++ "Server Error") ∧
    handleCallToolExec (.response 500 "Server Error" (.parsed .null)) .null =
      .result { content := [⟨"text", stringifyPretty .null⟩], isError := false } .null) :=
  ⟨rfl, accept_header_and_non2xx "/a" "get" [] 500 "Server Error" (.parsed .null)
    .null .null rfl⟩

/-! ## C4: bad-envelope responses and the caller-supplied id -/

/-- C4 counterexample: a bad envelope (missing `method`) carrying the falsy id
`0` is answered with a `-32600` error whose `id` is `null`, not the
caller-supplied `0`. -/
theorem mcp_envelope_id_counterexample :
    validateEnvelope ⟨some (.str "2.0"), none, some (.num 0)⟩ =
      some (.rpcError (-32600) "Invalid Request" JSVal.null) ∧
    JSVal.null ≠ JSVal.num 0 :=
  ⟨rfl, fun h => JSVal.noConfusion h⟩

/-- C4 (amended): every bad envelope (`jsonrpc !== '2.0'` or falsy `method`)
is answered with a `-32600` error whose id is `id || null`: the
caller-supplied id when it is truthy, and `null` otherwise — so falsy ids
(absent, `null`, `0`, `""`, `false`) are all replaced by `null`. -/
theorem mcp_envelope_invalid (req : RpcRequest) (v w : JSVal)
    (hbad : isJsonrpc2 req.jsonrpc = false ∨ jsTruthyOpt req.method = false)
    (hv : jsTruthy v = true) (hw : jsTruthy w = false) :
    validateEnvelope req =
      some (.rpcError (-32600) "Invalid Request" (idOrNull req.id)) ∧
    idOrNull (some v) = v ∧
    idOrNull (some w) = JSVal.null ∧
    idOrNull none = JSVal.null := by
  refine ⟨?_, ?_, ?_, rfl⟩
  · unfold validateEnvelope
    rcases hbad with hbad | hbad <;> simp [hbad]
  · simp [idOrNull, hv]
  · simp [idOrNull, hw]

/-- Witness for C4 (amended): bad envelope with a truthy string id; the truthy
and falsy id samples are `"abc"` and `0`. -/
theorem mcp_envelope_invalid_witness :
    isJsonrpc2 (none : Option JSVal) = false ∧
    jsTruthy (.str "abc") = true ∧
    jsTruthy (.num 0) = false ∧
    (validateEnvelope ⟨none, some (.str "listTools"), some (.str "abc")⟩ =
      some (.rpcError (-32600) "Invalid Request"
        (idOrNull (some (.str "abc")))) ∧
    idOrNull (some (.str "abc")) = .str "abc" ∧
    idOrNull (some (.num 0)) = JSVal.null ∧
    idOrNull none = JSVal.null) :=
  ⟨rfl, rfl, rfl,
    mcp_envelope_invalid ⟨none, some (.str "listTools"), some (.str "abc")⟩
      (.str "abc") (.num 0) (Or.inl rfl) rfl rfl⟩

/-! ## Map lemmas for the cache -/

theorem mapGet_mapSet_self (m : List (String × CacheEntry)) (k : String) (e : CacheEntry) :
    mapGet (mapSet m k e) k = some e := by
  induction m with
  | nil => simp [mapSet, mapGet]
  | cons kv t ih =>
    obtain ⟨k₁, e₁⟩ := kv
    by_cases hk : k₁ = k
    · simp [mapSet, hk, mapGet]
    · simp [mapSet, hk, mapGet, ih]

theorem mapGet_mapDelete_self (m : List (String × CacheEntry)) (k : String) :
    mapGet (mapDelete m k) k = none := by
  induction m with
  | nil => rfl
  | cons kv t ih =>
    by_cases hk : kv.1 = k
    · simpa [mapDelete, hk] using ih
    · simpa [mapDelete, mapGet, hk] using ih

/-! ## C6: cache set/get laws with TTL -/

/-- C6: on an enabled cache, immediately after `set(k, v, ttl)` a `get(k)`
performed while less than `ttl` has elapsed returns `v`; once more than `ttl`
has elapsed `get(k)` returns the miss sentinel and, as a side effect, the
expired entry is deleted from the underlying store. -/
theorem cache_set_get (s : ResponseCache) (now : Nat) (k : String) (v : JSVal)
    (ttl t₁ t₂ : Nat) (hen : s.enabled = true) (_httl : 0 < ttl)
    (h₁ : t₁ < now + ttl) (h₂ : now + ttl < t₂) :
    (ResponseCache.get (ResponseCache.set s now k v ttl) t₁ k).1 = v ∧
    (ResponseCache.get (ResponseCache.set s now k v ttl) t₂ k).1 = JSVal.null ∧
    mapGet ((ResponseCache.get (ResponseCache.set s now k v ttl) t₂ k).2).cache k =
      none := by
  have hset : ResponseCache.set s now k v ttl =
      { s with cache := mapSet (if s.cache.length ≥ s.maxSize
          then ResponseCache.evictOldestMap s.cache 1 else s.cache) k ⟨v, now + ttl⟩ } := by
    simp [ResponseCache.set, hen]
  have hfind := mapGet_mapSet_self
    (if s.cache.length ≥ s.maxSize then ResponseCache.evictOldestMap s.cache 1 else s.cache)
    k (⟨v, now + ttl⟩ : CacheEntry)
  refine ⟨?_, ?_, ?_⟩
  · simp [ResponseCache.get, hset, hen, hfind, Nat.not_le.mpr h₁]
  · simp [ResponseCache.get, hset, hen, hfind, Nat.le_of_lt h₂]
  · simp [ResponseCache.get, hset, hen, hfind, Nat.le_of_lt h₂, mapGet_mapDelete_self]

/-- Witness for C6: a fresh enabled cache, `set` at time 0 with ttl 10,
`get` at times 3 (hit) and 11 (expired miss, entry deleted). -/
theorem cache_set_get_witness :
    (⟨[], 1000, 10, true⟩ : ResponseCache).enabled = true ∧ 0 < 10 ∧ (3 : Nat) < 0 + 10 ∧
    (0 : Nat) + 10 < 11 ∧
    ((ResponseCache.get (ResponseCache.set ⟨[], 1000, 10, true⟩ 0 "k" (.num 5) 10) 3
        "k").1 = .num 5 ∧
    (ResponseCache.get (ResponseCache.set ⟨[], 1000, 10, true⟩ 0 "k" (.num 5) 10) 11
        "k").1 = JSVal.null ∧
    mapGet ((ResponseCache.get (ResponseCache.set ⟨[], 1000, 10, true⟩ 0 "k" (.num 5) 10)
        11 "k").2).cache "k" = none) :=
  ⟨rfl, by decide, by decide, by decide,
    cache_set_get ⟨[], 1000, 10, true⟩ 0 "k" (.num 5) 10 3 11 rfl (by decide)
      (by decide) (by decide)⟩

/-! ## C10: a stored null is indistinguishable from a miss -/

/-- C10: on an enabled cache, an unexpired entry whose stored data is `null`
is indistinguishable from a miss: `get(k)` returns `null` exactly as it does
on the state with the entry removed, and `getOrFetch(k, producer, ttl)`
invokes the producer even though the entry's ttl has not elapsed. -/
theorem cache_null_is_miss (s : ResponseCache) (now : Nat) (k : String)
    (produced : JSVal) (ttl : Nat) (e : CacheEntry) (hen : s.enabled = true)
    (hfound : mapGet s.cache k = some e) (hdata : e.data = JSVal.null)
    (hfresh : now < e.expiry) :
    (ResponseCache.get s now k).1 = JSVal.null ∧
    (ResponseCache.get { s with cache := mapDelete s.cache k } now k).1 = JSVal.null ∧
    (ResponseCache.getOrFetch s now k produced ttl).2.2 = true := by
  have hget : ResponseCache.get s now k = (JSVal.null, s) := by
    simp [ResponseCache.get, hen, hfound, Nat.not_le.mpr hfresh, hdata]
  refine ⟨by simp [hget], ?_, ?_⟩
  · simp [ResponseCache.get, hen, mapGet_mapDelete_self]
  · simp [ResponseCache.getOrFetch, hen, hget, isNullJS]

/-- Witness for C10: an enabled cache holding `null` for `"k"` with expiry 100
at time 0. -/
theorem cache_null_is_miss_witness :
    (⟨[("k", ⟨JSVal.null, 100⟩)], 1000, 10, true⟩ : ResponseCache).enabled = true ∧
    mapGet (⟨[("k", ⟨JSVal.null, 100⟩)], 1000, 10, true⟩ : ResponseCache).cache "k" =
      some ⟨JSVal.null, 100⟩ ∧
    (⟨JSVal.null, 100⟩ : CacheEntry).data = JSVal.null ∧ (0 : Nat) < 100 ∧
    ((ResponseCache.get ⟨[("k", ⟨JSVal.null, 100⟩)], 1000, 10, true⟩ 0 "k").1 =
      JSVal.null ∧
    (ResponseCache.get { (⟨[("k", ⟨JSVal.null, 100⟩)], 1000, 10, true⟩ : ResponseCache)
        with cache := mapDelete [("k", ⟨JSVal.null, 100⟩)] "k" } 0 "k").1 = JSVal.null ∧
    (ResponseCache.getOrFetch ⟨[("k", ⟨JSVal.null, 100⟩)], 1000, 10, true⟩ 0 "k"
        (.num 1) 5).2.2 = true) :=
  ⟨rfl, rfl, rfl, by decide,
    cache_null_is_miss ⟨[("k", ⟨JSVal.null, 100⟩)], 1000, 10, true⟩ 0 "k" (.num 1) 5
      ⟨JSVal.null, 100⟩ rfl rfl rfl (by decide)⟩

/-! ## C5: generateKey is insensitive to params insertion order -/

theorem lookupJS_perm (k : String) : ∀ {p₁ p₂ : List (String × JSVal)}, p₁.Perm p₂ →
    (p₁.map Prod.fst).Nodup → lookupJS p₁ k = lookupJS p₂ k := by
  intro p₁ p₂ h
  induction h with
  | nil => intro _; rfl
  | cons x h ih =>
    intro nd
    obtain ⟨k₁, v₁⟩ := x
    have nd' := (List.nodup_cons.mp nd).2
    by_cases hk : k₁ = k
    · simp [lookupJS, hk]
    · simp [lookupJS, hk, ih nd']
  | swap x y l =>
    intro nd
    obtain ⟨k₁, v₁⟩ := x
    obtain ⟨k₂, v₂⟩ := y
    have hxy : k₂ ≠ k₁ := by
      intro hc
      exact (List.nodup_cons.mp nd).1 (by simp [hc])
    by_cases h2 : k₂ = k <;> by_cases h1 : k₁ = k
    · exact absurd (h2.trans h1.symm) hxy
    · simp [lookupJS, h1, h2]
    · simp [lookupJS, h1, h2]
    · simp [lookupJS, h1, h2]
  | trans h₁ h₂ ih₁ ih₂ =>
    intro nd
    rw [ih₁ nd, ih₂ ((h₁.map Prod.fst).nodup nd)]

/-- C5: `generateKey(method, url, params)` is order-insensitive in `params`:
two params objects holding the same key-value pairs in any insertion order
(keys unique, as in a JS object) produce the identical cache key. -/
theorem generateKey_perm (m u : String) (p₁ p₂ : List (String × JSVal))
    (h : p₁.Perm p₂) (nd : (p₁.map Prod.fst).Nodup) :
    ResponseCache.generateKey m u p₁ = ResponseCache.generateKey m u p₂ := by
  have hkeys : List.insertionSort (· ≤ ·) (p₁.map Prod.fst) =
      List.insertionSort (· ≤ ·) (p₂.map Prod.fst) :=
    List.eq_of_perm_of_sorted
      (((List.perm_insertionSort _ _).trans (h.map Prod.fst)).trans
        (List.perm_insertionSort _ _).symm)
      (List.sorted_insertionSort _ _) (List.sorted_insertionSort _ _)
  have hfun : (fun k => (k, (lookupJS p₁ k).getD JSVal.null)) =
      (fun k => (k, (lookupJS p₂ k).getD JSVal.null)) :=
    funext fun k => by rw [lookupJS_perm k h nd]
  unfold ResponseCache.generateKey
  rw [hkeys, hfun]

/-- Witness for C5 at the claim's instance: `{a:1, b:2}` vs `{b:2, a:1}`. -/
theorem generateKey_perm_witness :
    ([("a", JSVal.num 1), ("b", JSVal.num 2)]).Perm
      [("b", JSVal.num 2), ("a", JSVal.num 1)] ∧
    (([("a", JSVal.num 1), ("b", JSVal.num 2)]).map Prod.fst).Nodup ∧
    ResponseCache.generateKey "GET" "/api/x" [("a", JSVal.num 1), ("b", JSVal.num 2)] =
      ResponseCache.generateKey "GET" "/api/x" [("b", JSVal.num 2), ("a", JSVal.num 1)] :=
  ⟨List.Perm.swap ("b", JSVal.num 2) ("a", JSVal.num 1) [], by decide,
    generateKey_perm "GET" "/api/x" _ _
      (List.Perm.swap ("b", JSVal.num 2) ("a", JSVal.num 1) []) (by decide)⟩

/-! ## C3: duplicate tool names -/

/-- C3 counterexample: two operations (on paths `/a` and `/b`) with the same
`operationId` `"dup"` yield *two* registry entries with that name — the build
step does not keep only one tool per name — and the subsequent lookup
resolves to the first-built entry (path `/a`), not the last-built one
(path `/b`). -/
theorem buildTools_dup_counterexample :
    ((SwaggerMCPServer.buildTools
        [("/a", [("get", ⟨some "dup", none, none, [], none, none⟩)]),
         ("/b", [("get", ⟨some "dup", none, none, [], none, none⟩)])]).filter
      (fun t => t.name == "dup")).length = 2 ∧
    (lookupTool (SwaggerMCPServer.buildTools
        [("/a", [("get", ⟨some "dup", none, none, [], none, none⟩)]),
         ("/b", [("get", ⟨some "dup", none, none, [], none, none⟩)])]) "dup").map
      (fun t => t.metadata.path) = some "/a" ∧
    (some "/a" : Option String) ≠ some "/b" := by
  refine ⟨by decide, by decide, by decide⟩

/-- C3 (amended): the build step keeps every operation's tool, duplicate
names included (the registry length is the number of HTTP operations in the
specification), and tool lookup by name resolves to the *first*-built entry
with that name: entries after the first match never influence the lookup. -/
theorem buildTools_first_wins (paths : List (String × List (String × Operation)))
    (ts₁ ts₂ : List Tool) (t : Tool) (n : String) (ht : t.name = n) :
    lookupTool (ts₁ ++ t :: ts₂) n = lookupTool (ts₁ ++ [t]) n ∧
    (SwaggerMCPServer.buildTools paths).length =
      (paths.map (fun pp => (pp.2.filter (fun mo => httpMethods.contains mo.1)).length)).sum := by
  constructor
  · induction ts₁ with
    | nil => simp [lookupTool, List.find?, ht]
    | cons a as ih =>
      simp only [List.cons_append, lookupTool, List.find?] at ih ⊢
      by_cases ha : a.name = n
      · simp [ha]
      · simpa [ha] using ih
  · simp [SwaggerMCPServer.buildTools, Function.comp_def, List.length_map]

/-- Witness for C3 (amended) at the duplicate-name example. -/
theorem buildTools_first_wins_witness :
    (⟨"dup", "d1", ⟨"/a", "get", []⟩⟩ : Tool).name = "dup" ∧
    (lookupTool ([] ++ (⟨"dup", "d1", ⟨"/a", "get", []⟩⟩ : Tool) ::
        [⟨"dup", "d2", ⟨"/b", "get", []⟩⟩]) "dup" =
      lookupTool ([] ++ [⟨"dup", "d1", ⟨"/a", "get", []⟩⟩]) "dup" ∧
    (SwaggerMCPServer.buildTools
        [("/a", [("get", ⟨some "dup", none, none, [], none, none⟩)]),
         ("/b", [("get", ⟨some "dup", none, none, [], none, none⟩)])]).length =
      ([("/a", [("get", (⟨some "dup", none, none, [], none, none⟩ : Operation))]),
        ("/b", [("get", ⟨some "dup", none, none, [], none, none⟩)])].map
        (fun pp => (pp.2.filter (fun mo => httpMethods.contains mo.1)).length)).sum) :=
  ⟨rfl, buildTools_first_wins
    [("/a", [("get", ⟨some "dup", none, none, [], none, none⟩)]),
     ("/b", [("get", ⟨some "dup", none, none, [], none, none⟩)])]
    [] [⟨"dup", "d2", ⟨"/b", "get", []⟩⟩] ⟨"dup", "d1", ⟨"/a", "get", []⟩⟩ "dup" rfl⟩

/-! ## C9: falsy arguments are coerced to the empty string -/

/-- C9: a falsy argument value (`0`, `false`, `null`, `""`) is coerced by
`String(args[key] || '')` to the empty string before use: it is substituted
into the URL path and appended to the query string exactly as the empty
string would be, on both the `executeApiCall` path and the `mcp.callTool`
path; concretely, `{id: 0, c: false}` against path `/w/{id}` yields
`/w/?c=`. -/
theorem falsy_arg_coerced (v : JSVal) (base path k : String)
    (hf : jsTruthy v = false) :
    coerceArg v = "" ∧
    buildExecuteUrl base path "get" [(k, v)] =
      buildExecuteUrl base path "get" [(k, .str "")] ∧
    buildMcpUrl base path "get" [(k, v)] = buildMcpUrl base path "get" [(k, .str "")] ∧
    buildExecuteUrl "" "/w/\x7bid\x7d" "get" [("id", .num 0), ("c", .bool false)] =
      "/w/?c=" := by
  have hc : coerceArg v = "" := by simp [coerceArg, hf]
  have hc' : coerceArg (.str "") = "" := rfl
  refine ⟨hc, ?_, ?_, by decide⟩
  · by_cases hin : strIncludes path (placeholder k) = true <;>
      simp [buildExecuteUrl, hc, hc', hin]
  · by_cases hin : strIncludes path (placeholder k) = true <;>
      simp [buildMcpUrl, hc, hc', hin]

/-- Witness for C9 at the falsy value `false`. -/
theorem falsy_arg_coerced_witness :
    jsTruthy (.bool false) = false ∧
    (coerceArg (.bool false) = "" ∧
    buildExecuteUrl "b" "/p/\x7bq\x7d" "get" [("q", .bool false)] =
      buildExecuteUrl "b" "/p/\x7bq\x7d" "get" [("q", .str "")] ∧
    buildMcpUrl "b" "/p/\x7bq\x7d" "get" [("q", .bool false)] =
      buildMcpUrl "b" "/p/\x7bq\x7d" "get" [("q", .str "")] ∧
    buildExecuteUrl "" "/w/\x7bid\x7d" "get" [("id", .num 0), ("c", .bool false)] =
      "/w/?c=") :=
  ⟨rfl, falsy_arg_coerced (.bool false) "b" "/p/\x7bq\x7d" "q" rfl⟩

/-! ## C8: extractData locates the payload array as the claim describes -/

theorem lookupJS_eq_of_mem {fs : List (String × JSVal)} {k : String} {v : JSVal}
    (nd : (fs.map Prod.fst).Nodup) (hm : (k, v) ∈ fs) : lookupJS fs k = some v := by
  induction fs with
  | nil => cases hm
  | cons kv t ih =>
    obtain ⟨k₁, v₁⟩ := kv
    have hnd := List.nodup_cons.mp nd
    rcases List.mem_cons.mp hm with he | hmt
    · obtain ⟨hk, hv⟩ := Prod.mk.injEq .. ▸ he
      subst hk; subst hv
      simp [lookupJS]
    · have hk : k₁ ≠ k := by
        intro hc
        subst hc
        exact hnd.1 (by simpa using List.mem_map_of_mem Prod.fst hmt)
      simp [lookupJS, hk, ih hnd.2 hmt]

theorem arrayKeys_eq {fs : List (String × JSVal)} (nd : (fs.map Prod.fst).Nodup) :
    (fs.map Prod.fst).filter
      (fun k => match lookupJS fs k with
        | some v => isArr v
        | none => false) =
    (fs.filter (fun kv => isArr kv.2)).map Prod.fst := by
  induction fs with
  | nil => rfl
  | cons kv t ih =>
    obtain ⟨k₁, v₁⟩ := kv
    have hnd := List.nodup_cons.mp nd
    have hhead : lookupJS ((k₁, v₁) :: t) k₁ = some v₁ := by simp [lookupJS]
    have htail : ∀ k ∈ t.map Prod.fst,
        (match lookupJS ((k₁, v₁) :: t) k with
          | some v => isArr v
          | none => false) =
        (match lookupJS t k with
          | some v => isArr v
          | none => false) := by
      intro k hk
      have hne : k₁ ≠ k := fun hc => hnd.1 (hc ▸ hk)
      simp [lookupJS, hne]
    by_cases hA : isArr v₁ = true
    · simp only [List.map_cons, List.filter_cons, hhead, hA]
      rw [List.filter_congr htail, ih hnd.2]
      simp [hA]
    · simp only [List.map_cons, List.filter_cons, hhead]
      rw [List.filter_congr htail, ih hnd.2]
      simp [hA]

theorem uniqueArrayProp_eq {fs : List (String × JSVal)}
    (nd : (fs.map Prod.fst).Nodup) : uniqueArrayProp fs = uniqueArrayPropSpec fs := by
  unfold uniqueArrayProp uniqueArrayPropSpec
  dsimp only
  rw [arrayKeys_eq nd]
  cases hq : fs.filter (fun kv => isArr kv.2) with
  | nil => rfl
  | cons kv rest =>
    cases rest with
    | nil =>
      obtain ⟨k₀, v₀⟩ := kv
      have hmem : (k₀, v₀) ∈ fs :=
        List.mem_of_mem_filter (hq ▸ List.mem_singleton_self (k₀, v₀))
      simp [lookupJS_eq_of_mem nd hmem]
    | cons kv₂ rest₂ => rfl

/-- C8: `extractData` behaves exactly as the claim describes — the named
properties `data`, `items`, `results`, `records`, `content` are probed in
that order and the first array-valued one wins; an array response is returned
verbatim; otherwise the unique array-valued property is used, and with zero
or more than one array-valued properties the result is `null` — in
particular `extractData({foo:[1,2], bar:[3,4]})` is `null`. -/
theorem extractData_matches_spec (fs : List (String × JSVal)) (xs : List JSVal)
    (hnd : (fs.map Prod.fst).Nodup) :
    PaginationHelper.extractData (.obj fs) = extractDataSpec (.obj fs) ∧
    PaginationHelper.extractData (.arr xs) = some xs ∧
    PaginationHelper.extractData (.obj [("foo", .arr [.num 1, .num 2]),
      ("bar", .arr [.num 3, .num 4])]) = none := by
  refine ⟨?_, rfl, rfl⟩
  simp only [PaginationHelper.extractData, extractDataSpec, findDataProp, orO_assoc,
    orO_none_left]
  rw [uniqueArrayProp_eq hnd]

/-- Witness for C8 at the claim's two-array-property object. -/
theorem extractData_matches_spec_witness :
    (([("foo", JSVal.arr [.num 1, .num 2]), ("bar", JSVal.arr [.num 3, .num 4])].map
      Prod.fst)).Nodup ∧
    (PaginationHelper.extractData
        (.obj [("foo", .arr [.num 1, .num 2]), ("bar", .arr [.num 3, .num 4])]) =
      extractDataSpec
        (.obj [("foo", .arr [.num 1, .num 2]), ("bar", .arr [.num 3, .num 4])]) ∧
    PaginationHelper.extractData (.arr [.num 9]) = some [.num 9] ∧
    PaginationHelper.extractData (.obj [("foo", .arr [.num 1, .num 2]),
      ("bar", .arr [.num 3, .num 4])]) = none) :=
  ⟨by decide, extractData_matches_spec _ [.num 9] (by decide)⟩

end CoreMCP
